import Mathlib

/-!
Verification development for `src/index.js` of the telegram-userbot
repository: a single script that extracts token announcements from chat
messages, enriches them via a market-data lookup, forwards them to a
webhook, persists a session credential in a `.env` file, and validates
its configuration at startup.

Strings are modelled as Lean `String` / `List Char`; the characters the
program manipulates are all in the Basic Multilingual Plane, where
JavaScript UTF-16 code units and Unicode code points coincide.
-/

/-! ### Extractor (src/index.js lines 34-54, `extractTokenInfo`)

Each of the six JavaScript regular expressions is embedded as a matcher
`List Char → Option (List Char)` that attempts a match anchored at the
head of the list and returns the first capture group, plus a scanner
`firstMatch` that tries every start position left to right — exactly the
semantics of `text.match(re)` for a non-global regex.

For these particular patterns greedy matching with backtracking
simplifies: every quantified character class is followed either by
nothing or by a literal character that is not in the class, so a match
at a given start position exists iff the maximal class run works, and
the capture is that maximal run.
-/

/-- Character class `[a-zA-Z0-9]` of the JavaScript regexes
('Char.isAlpha'/'Char.isDigit' are exactly the ASCII ranges). -/
def isAlnum (c : Char) : Bool := c.isAlpha || c.isDigit

/-- The backtick character, U+0060. -/
def backtickChar : Char := Char.ofNat 96

/-- Consume the literal character list `lit` from the head of `cs`;
`some rest` on success, `none` if `cs` does not start with `lit`. -/
def dropLit : List Char → List Char → Option (List Char)
  | [], cs => some cs
  | _ :: _, [] => none
  | l :: ls, c :: cs => if c = l then dropLit ls cs else none

/-- Leftmost-match scanner: try the anchored matcher `m` at every
suffix of the text, left to right, as JavaScript `String.match` does for
a non-global regex. -/
def firstMatch (m : List Char → Option (List Char)) : List Char → Option (List Char)
  | [] => m []
  | c :: cs =>
    match m (c :: cs) with
    | some r => some r
    | none => firstMatch m cs

/-- Anchored matcher for `/\$([a-zA-Z0-9]+)/` (line 36): a literal `$`
followed by at least one alphanumeric; the capture is the maximal
alphanumeric run. -/
def tokenNameAt : List Char → Option (List Char)
  | [] => none
  | c :: cs =>
    if c = '$' then
      let run := cs.takeWhile isAlnum
      if run.isEmpty then none else some run
    else none

/-- Anchored matcher for ``/`([a-zA-Z0-9]{32,44})`/`` (line 37): a
backtick, 32 to 44 alphanumerics, a backtick.  Greedy `{32,44}` with
backtracking succeeds iff the maximal alphanumeric run after the opening
backtick has length in `[32,44]` and is immediately followed by a
backtick (a shorter prefix of the run is always followed by an
alphanumeric, never a backtick). -/
def caAt : List Char → Option (List Char)
  | [] => none
  | c :: cs =>
    if c = backtickChar then
      let run := cs.takeWhile isAlnum
      if 32 ≤ run.length ∧ run.length ≤ 44 then
        match cs.drop run.length with
        | d :: _ => if d = backtickChar then some run else none
        | [] => none
      else none
    else none

/-- Anchored matcher for a literal label followed by one-or-more
characters of the class `f`: the shape of the `price`, `mc` and
`holders` regexes (lines 38-40). -/
def labelRunAt (label : List Char) (f : Char → Bool) (cs : List Char) : Option (List Char) :=
  match dropLit label cs with
  | none => none
  | some rest =>
    let run := rest.takeWhile f
    if run.isEmpty then none else some run

/-- Character class `[\$\d\.,]` of the price regex (line 38). -/
def isPriceChar (c : Char) : Bool := c = '$' || c.isDigit || c = '.' || c = ','

/-- Character class `[\$\d\.,kM]` of the market-cap regex (line 39). -/
def isMcChar (c : Char) : Bool := isPriceChar c || c = 'k' || c = 'M'

/-- Anchored matcher for `/\*\*Top10:\*\* ([\d\.]+%)/` (line 41): the
label, then one-or-more of `[\d.]`, then a literal `%`; the capture
includes the `%`. -/
def top10At (cs : List Char) : Option (List Char) :=
  match dropLit "**Top10:** ".data cs with
  | none => none
  | some rest =>
    let run := rest.takeWhile (fun c => c.isDigit || c = '.')
    if run.isEmpty then none
    else
      match rest.drop run.length with
      | d :: _ => if d = '%' then some (run ++ ['%']) else none
      | [] => none

/-- The six keys of the `patterns` object of `extractTokenInfo`
(lines 35-42), in source order. -/
inductive Key
  | tokenName
  | ca
  | price
  | mc
  | holders
  | top10
deriving DecidableEq, Repr

/-- First capture group of key `k`'s regex on `text`, i.e. the value of
`text.match(patterns[k])` followed by `match[1]` (the captures of all
six patterns are non-empty by construction, so `match && match[1]` is
truthy exactly when the match exists). -/
def patternMatch (k : Key) (text : String) : Option String :=
  match k with
  | .tokenName => (firstMatch tokenNameAt text.data).map String.mk
  | .ca => (firstMatch caAt text.data).map String.mk
  | .price => (firstMatch (labelRunAt "**Price:** ".data isPriceChar) text.data).map String.mk
  | .mc => (firstMatch (labelRunAt "**Market Cap:** ".data isMcChar) text.data).map String.mk
  | .holders => (firstMatch (labelRunAt "**Holders:** ".data Char.isDigit) text.data).map String.mk
  | .top10 => (firstMatch top10At text.data).map String.mk

/-- The loop of `extractTokenInfo` (lines 44-52), generalised over the
iteration order of the keys: the accumulator is the `extracted` object,
a partial map from keys to captured strings; the loop returns `none`
(null) as soon as one pattern fails. -/
def extractLoop (text : String) : List Key → (Key → Option String) → Option (Key → Option String)
  | [], acc => some acc
  | k :: ks, acc =>
    match patternMatch k text with
    | some v => extractLoop text ks (fun k2 => if k2 = k then some v else acc k2)
    | none => none

/-- Source iteration order of `for (const key in patterns)`: insertion
order of the `patterns` object literal. -/
def keyOrder : List Key := [.tokenName, .ca, .price, .mc, .holders, .top10]

/-- `extractTokenInfo` (lines 34-54): run the loop in source order
starting from the empty object. -/
def extractTokenInfo (text : String) : Option (Key → Option String) :=
  extractLoop text keyOrder (fun _ => none)

/-- Field `k` of the record extracted from `text`, `none` when
extraction failed. -/
def extractedField (text : String) (k : Key) : Option String :=
  match extractTokenInfo text with
  | some f => f k
  | none => none

/-! ### Enricher (src/index.js lines 56-75, `getPairAddress`)

The single `axios.get` (10-second timeout) either resolves with a JSON
body, or throws: axios rejects on a non-2xx status, on a timeout and on
a network error, and the `catch` block handles all three alike.  The
outcome of the call is reified as `HttpResult`; the function's effects
are its return value together with the list of `logToFile` lines it
writes. -/

/-- One entry of the `pairs` array of the DexScreener response body. -/
structure DexPair where
  pairAddress : String
deriving DecidableEq, Repr

/-- The ways the `axios.get` call can throw (all handled by the same
`catch`), each with the `error.message` axios produces. -/
inductive HttpFailure
  | non2xx (status : Nat)
  | timeout
  | netError (msg : String)
deriving DecidableEq, Repr

/-- `error.message` of an axios rejection. -/
def failureMessage : HttpFailure → String
  | .non2xx s => "Request failed with status code " ++ toString s
  | .timeout => "timeout of 10000ms exceeded"
  | .netError m => m

/-- Outcome of the lookup call: a resolved 2xx response whose
`data.pairs` is either absent/null (`none`) or an array, or a thrown
error. -/
inductive HttpResult
  | success (pairs : Option (List DexPair))
  | failure (f : HttpFailure)
deriving DecidableEq, Repr

/-- `getPairAddress` (lines 56-75): first component is the returned
value, second the `logToFile` lines written, in order.
`response.data?.pairs?.length > 0` selects the first branch exactly
when the array is present and non-empty; every other resolved shape
logs and returns null; a thrown error is caught, logged and turned
into null rather than propagated. -/
def getPairAddress (tokenAddress : String) (r : HttpResult) : Option String × List String :=
  match r with
  | .success (some (p :: _)) =>
    (some p.pairAddress, ["Found pair address for " ++ tokenAddress ++ ": " ++ p.pairAddress])
  | .success (some []) => (none, ["No pairs found for token: " ++ tokenAddress])
  | .success none => (none, ["No pairs found for token: " ++ tokenAddress])
  | .failure f => (none, ["API Error fetching pair address: " ++ failureMessage f])

/-! ### Notifier (src/index.js lines 77-127, `sendToDiscord`)

`sendToDiscord(info, pairAddress)` is modelled as a function from its
two arguments (each possibly absent) to the list of observable effects
it performs: the webhook POST and the `logToFile` lines.  JavaScript
truthiness makes the guard `!info || !pairAddress` also fire on an
empty pair-address string.  The timestamp (`new Date().toISOString()`)
and the POST outcome are inputs of the model. -/

/-- One field of the Discord embed object (lines 102-113); `inlineFlag`
stands for the JSON key `inline`. -/
structure EmbedField where
  name : String
  value : String
  inlineFlag : Bool
deriving DecidableEq, Repr

/-- The Discord embed object (lines 95-115). -/
structure Embed where
  color : Nat
  authorName : String
  title : String
  description : String
  fields : List EmbedField
  timestamp : String
deriving DecidableEq, Repr

/-- An observable side effect of the notifier. -/
inductive Effect
  | httpPost (url : String) (payload : Embed)
  | logLine (line : String)
deriving DecidableEq, Repr

/-- `pad` (line 80): `str.padEnd(11, " ")`. -/
def pad (s : String) : String := s.pushn ' ' (11 - s.length)

/-- Field access `info.price` etc. on the extracted object; an absent
property interpolates as the string `undefined` in a template literal. -/
def fieldStr (i : Key → Option String) (k : Key) : String :=
  match i k with
  | some v => v
  | none => "undefined"

/-- `statsValue` (lines 82-87). -/
def statsValue (i : Key → Option String) : String :=
  "`" ++ pad "Price" ++ "` " ++ fieldStr i .price ++ "\n" ++
  "`" ++ pad "Market Cap" ++ "` " ++ fieldStr i .mc ++ "\n" ++
  "`" ++ pad "Holders" ++ "` " ++ fieldStr i .holders ++ "\n" ++
  "`" ++ pad "Top 10" ++ "` " ++ fieldStr i .top10

/-- `linksValue` (lines 89-93); the separator characters are copied
from the source file verbatim. -/
def linksValue (i : Key → Option String) (pairAddress : String) : String :=
  "[Axiom](https://axiom.trade/meme/" ++ pairAddress ++ "/@gravy)" ++ " â€¢ " ++
  "[DexScreener](https://dexscreener.com/solana/" ++ fieldStr i .ca ++ ")" ++ " â€¢ " ++
  "[Solscan](https://solscan.io/token/" ++ fieldStr i .ca ++ ")"

/-- The embed built at lines 95-115, with the decorative literals
copied from the source file verbatim. -/
def buildEmbed (i : Key → Option String) (pairAddress now : String) : Embed :=
  { color := 0x9046ff
    authorName := "âœ¨ TRADE SIGNAL âœ¨"
    title := "ðŸª™ **$" ++ fieldStr i .tokenName ++ "**"
    description := "```" ++ fieldStr i .ca ++ "```"
    fields :=
      [ { name := "ðŸ“Š Token Stats", value := statsValue i, inlineFlag := false },
        { name := "ðŸ”— Quick Links", value := linksValue i pairAddress, inlineFlag := false } ]
    timestamp := now }

/-- `sendToDiscord` (lines 77-127).  `info`/`pairAddress` are the two
arguments, absent values modelled as `none`; `now` is the wall-clock
timestamp; `postError` is `none` when the POST succeeds and carries
`error.message` when it rejects.  Returns the effects performed, in
order; the guard at line 78 returns with no effect when `info` is
absent or `pairAddress` is absent or empty (both falsy in JavaScript). -/
def sendToDiscord (webhookUrl now : String) (info : Option (Key → Option String))
    (pairAddress : Option String) (postError : Option String) : List Effect :=
  match info, pairAddress with
  | some i, some pa =>
    if pa = "" then []
    else
      Effect.httpPost webhookUrl (buildEmbed i pa now) ::
        (match postError with
          | none => [Effect.logLine "Successfully forwarded embed to Discord."]
          | some e =>
            [Effect.logLine ("DISCORD ERROR: Error sending embed to Discord: " ++ e)])
  | _, _ => []

/-! ### Credential persistence (src/index.js lines 133-152, `updateEnvFile`)

`updateEnvFile(key, value)` reads `.env`, tests it against
`new RegExp(`^${key}=.*$`, "m")`, replaces the first match with the
replacement string `${key}=${value}` if the test succeeds, and appends
`\n${key}=${value}` otherwise.  The file content is an explicit
argument here and the new content is the return value.

With the `m` flag, `^...$` spans exactly one element of the content
split on newlines (`.` does not match a newline), so the regex matches
iff some line starts with `key=`, and the first match is the first such
line.  The model keeps LF as the only line terminator; contents holding
a CR or the Unicode line separators, which a JavaScript multiline regex
also treats as terminators, are outside its scope (the file is plain
LF-separated `KEY=value` text).  The key is treated literally, which
coincides with the JavaScript behaviour for keys free of regex
metacharacters (the only call site passes `SESSION`).

JavaScript `String.replace` expands substitution sequences in the
replacement string: `$$` to `$`, `$&` to the matched text, `$` followed
by a backquote to the text before the match, `$` followed by a quote
(U+0027) to the text after the match.  `$<digits>` is kept literally
because the regex has no capture groups, and so is any other `$`.
`expandRepl` implements exactly this. -/

/-- The dollar character, U+0024. -/
def dollarChar : Char := Char.ofNat 36

/-- The ampersand character, U+0026. -/
def ampChar : Char := Char.ofNat 38

/-- The apostrophe character, U+0027. -/
def quoteChar : Char := Char.ofNat 39

/-- Split a character list at newlines, as `content.split("\n")` /
the line structure seen by a multiline regex.  Always returns at least
one (possibly empty) line. -/
def splitLines : List Char → List (List Char)
  | [] => [[]]
  | c :: cs =>
    if c = '\n' then [] :: splitLines cs
    else
      match splitLines cs with
      | l :: ls => (c :: l) :: ls
      | [] => [[c]]

/-- Join lines with newlines: left inverse of `splitLines`. -/
def joinLines : List (List Char) → List Char
  | [] => []
  | [l] => l
  | l :: ls => l ++ '\n' :: joinLines ls

/-- Does a line start with `key=`? (the multiline regex `^key=.*$`
matches exactly the lines of this shape). -/
def lineHasKey (pat line : List Char) : Bool := (dropLit pat line).isSome

/-- Locate the first line starting with `key=`: returns the lines
before it, the line itself, and the lines after it. -/
def findLine (pat : List Char) : List (List Char) → Option (List (List Char) × List Char × List (List Char))
  | [] => none
  | l :: ls =>
    if lineHasKey pat l then some ([], l, ls)
    else
      match findLine pat ls with
      | some (pre, m, post) => some (l :: pre, m, post)
      | none => none

/-- The raw text standing before the matched line (each earlier line
followed by its newline). -/
def joinBefore : List (List Char) → List Char
  | [] => []
  | l :: ls => l ++ '\n' :: joinBefore ls

/-- The raw text standing after the matched line (a newline before each
later line). -/
def joinAfter : List (List Char) → List Char
  | [] => []
  | l :: ls => '\n' :: joinLines (l :: ls)

/-- JavaScript `String.replace` substitution-sequence expansion of the
replacement string: `matched`, `before` and `after` are the matched
text and the parts of the subject string around it. -/
def expandRepl (matched before after : List Char) : List Char → List Char
  | [] => []
  | c :: rest =>
    if c = dollarChar then
      match rest with
      | [] => [c]
      | d :: rest2 =>
        if d = dollarChar then dollarChar :: expandRepl matched before after rest2
        else if d = ampChar then matched ++ expandRepl matched before after rest2
        else if d = backtickChar then before ++ expandRepl matched before after rest2
        else if d = quoteChar then after ++ expandRepl matched before after rest2
        else c :: expandRepl matched before after (d :: rest2)
    else c :: expandRepl matched before after rest

/-- True when the list contains no substitution sequence (`$` followed
by `$`, `&`, a backquote or a quote), so that `expandRepl` keeps it
verbatim. -/
def noSubst : List Char → Bool
  | [] => true
  | [_] => true
  | c :: d :: rest =>
    if c = dollarChar then
      !(d = dollarChar || d = ampChar || d = backtickChar || d = quoteChar) && noSubst (d :: rest)
    else noSubst (d :: rest)

/-- `updateEnvFile` (lines 133-152) as a function from the key, the
value and the current file content to the new file content.  The
`keyRegex.test` / `envContent.replace` pair of the source is realised
by `findLine`: when a line starting with `key=` exists, that line is
replaced by the expansion of `${key}=${value}` (JavaScript `replace`
semantics); otherwise `\n${key}=${value}` is appended. -/
def updateEnvFile (key value content : String) : String :=
  let pat := (key ++ "=").data
  let repl := (key ++ "=" ++ value).data
  match findLine pat (splitLines content.data) with
  | some (pre, m, post) =>
    let before := joinBefore pre
    let after := joinAfter post
    String.mk (before ++ expandRepl m before after repl ++ after)
  | none => content ++ "\n" ++ key ++ "=" ++ value

/-! ### Startup configuration check (src/index.js lines 9-20)

`const apiId = parseInt(process.env.API_ID, 10)` followed by
`if (!apiId || !apiHash || !targetChatUsername || !discordWebhookUrl)`:
the process prints an error and exits with status 1 when the parsed
application id is `NaN` or `0`, or any of the three string settings is
absent or empty.  `SESSION` (line 11) is defaulted to the empty string
and never checked.  The environment is a record of optional raw
variables; the outcome is `some (code, message)` for an exit and `none`
when startup proceeds. -/

/-- The raw environment variables the script reads (absent = `none`). -/
structure Env where
  API_ID : Option String
  API_HASH : Option String
  SESSION : Option String
  TARGET_CHAT_USERNAME : Option String
  DISCORD_WEBHOOK_URL : Option String
deriving DecidableEq, Repr

/-- Numeric value of a digit run. -/
def digitsToNat (ds : List Char) : Nat :=
  ds.foldl (fun n c => n * 10 + (c.toNat - 48)) 0

/-- Leading-digit parse used by `jsParseInt10`: `none` when no leading
digit exists (JavaScript `NaN`). -/
def leadingInt (cs : List Char) : Option Nat :=
  let ds := cs.takeWhile Char.isDigit
  if ds.isEmpty then none else some (digitsToNat ds)

/-- JavaScript `parseInt(s, 10)`: skip leading whitespace, accept an
optional sign, then the longest run of decimal digits; `NaN` (here
`none`) when no digit follows. -/
def jsParseInt10 (s : String) : Option Int :=
  match s.data.dropWhile Char.isWhitespace with
  | '-' :: rest => (leadingInt rest).map (fun n => -(n : Int))
  | '+' :: rest => (leadingInt rest).map (fun n => (n : Int))
  | cs => (leadingInt cs).map (fun n => (n : Int))

/-- `parseInt(process.env.API_ID, 10)`: an absent variable stringifies
to `"undefined"`, which parses to `NaN`. -/
def apiIdVal (e : Env) : Option Int :=
  match e.API_ID with
  | none => none
  | some s => jsParseInt10 s

/-- Truthiness of the parsed application id: `NaN` and `0` are falsy. -/
def apiIdTruthy (e : Env) : Bool :=
  match apiIdVal e with
  | none => false
  | some n => !(n = 0 : Bool)

/-- Truthiness of an optional string variable: absent and empty are the
falsy cases. -/
def strTruthy : Option String → Bool
  | none => false
  | some s => !(s == "")

/-- The error message printed at lines 16-18. -/
def envErrorMsg : String :=
  "Error: API_ID, API_HASH, TARGET_CHAT_USERNAME, and DISCORD_WEBHOOK_URL must be set in the .env file."

/-- The startup check (lines 9-20): `some (1, envErrorMsg)` when the
guard at line 15 fires (the process prints the message and exits with
status 1), `none` when startup proceeds. -/
def startupCheck (e : Env) : Option (Nat × String) :=
  if !apiIdTruthy e || !strTruthy e.API_HASH || !strTruthy e.TARGET_CHAT_USERNAME
      || !strTruthy e.DISCORD_WEBHOOK_URL then
    some (1, envErrorMsg)
  else none

/-! ### Concrete inputs used to instantiate the theorems -/

/-- A fully matching announcement message: all six patterns capture
(token symbol `FOO`, a 36-character backticked address, price, market
cap, holders, top-10 concentration). -/
def baseMsg : String :=
  "$FOO `A1B2C3D4E5F6G7H8I9J0K1L2M3N4O5P6Q7R8` **Price:** $0.002 **Market Cap:** $500k **Holders:** 120 **Top10:** 12.5%"

/-- Like `baseMsg` but with no `$SYMBOL`: the first `$` followed by an
alphanumeric in the text is the `$0` inside the price value. -/
def c8Msg : String :=
  "CA `A1B2C3D4E5F6G7H8I9J0K1L2M3N4O5P6Q7R8` **Price:** $0.002 **Market Cap:** $500k **Holders:** 120 **Top10:** 12.5%"

/-- `baseMsg` with the space after `**Price:**` removed. -/
def priceNoSpaceMsg : String :=
  "$FOO `A1B2C3D4E5F6G7H8I9J0K1L2M3N4O5P6Q7R8` **Price:**$0.002 **Market Cap:** $500k **Holders:** 120 **Top10:** 12.5%"

/-- `baseMsg` with the space after `**Price:**` doubled. -/
def priceTwoSpaceMsg : String :=
  "$FOO `A1B2C3D4E5F6G7H8I9J0K1L2M3N4O5P6Q7R8` **Price:**  $0.002 **Market Cap:** $500k **Holders:** 120 **Top10:** 12.5%"

/-- `baseMsg` with the space after `**Market Cap:**` removed. -/
def mcNoSpaceMsg : String :=
  "$FOO `A1B2C3D4E5F6G7H8I9J0K1L2M3N4O5P6Q7R8` **Price:** $0.002 **Market Cap:**$500k **Holders:** 120 **Top10:** 12.5%"

/-- `baseMsg` with the space after `**Market Cap:**` doubled. -/
def mcTwoSpaceMsg : String :=
  "$FOO `A1B2C3D4E5F6G7H8I9J0K1L2M3N4O5P6Q7R8` **Price:** $0.002 **Market Cap:**  $500k **Holders:** 120 **Top10:** 12.5%"

/-- `baseMsg` with the space after `**Holders:**` removed. -/
def holdersNoSpaceMsg : String :=
  "$FOO `A1B2C3D4E5F6G7H8I9J0K1L2M3N4O5P6Q7R8` **Price:** $0.002 **Market Cap:** $500k **Holders:**120 **Top10:** 12.5%"

/-- `baseMsg` with the space after `**Holders:**` doubled. -/
def holdersTwoSpaceMsg : String :=
  "$FOO `A1B2C3D4E5F6G7H8I9J0K1L2M3N4O5P6Q7R8` **Price:** $0.002 **Market Cap:** $500k **Holders:**  120 **Top10:** 12.5%"

/-- `baseMsg` with the space after `**Top10:**` removed. -/
def top10NoSpaceMsg : String :=
  "$FOO `A1B2C3D4E5F6G7H8I9J0K1L2M3N4O5P6Q7R8` **Price:** $0.002 **Market Cap:** $500k **Holders:** 120 **Top10:**12.5%"

/-- `baseMsg` with the space after `**Top10:**` doubled. -/
def top10TwoSpaceMsg : String :=
  "$FOO `A1B2C3D4E5F6G7H8I9J0K1L2M3N4O5P6Q7R8` **Price:** $0.002 **Market Cap:** $500k **Holders:** 120 **Top10:**  12.5%"

/-- `baseMsg` with the whole `**Holders:** 120` field removed. -/
def missingHoldersMsg : String :=
  "$FOO `A1B2C3D4E5F6G7H8I9J0K1L2M3N4O5P6Q7R8` **Price:** $0.002 **Market Cap:** $500k **Top10:** 12.5%"

/-- A permutation of `keyOrder` used to instantiate order independence. -/
def altOrder : List Key := [.ca, .tokenName, .price, .mc, .holders, .top10]

/-- An environment with every required variable set and an empty
session credential. -/
def envAllSet : Env :=
  { API_ID := some "12345", API_HASH := some "hash", SESSION := some "",
    TARGET_CHAT_USERNAME := some "chat", DISCORD_WEBHOOK_URL := some "url" }

/-- An environment whose application id is missing. -/
def envNoApiId : Env :=
  { API_ID := none, API_HASH := some "hash", SESSION := some "",
    TARGET_CHAT_USERNAME := some "chat", DISCORD_WEBHOOK_URL := some "url" }

/-! ### Helper lemmas -/

/-- The extraction loop returns null exactly when one of the keys it
iterates over fails to match. -/
theorem extractLoop_eq_none_iff (text : String) (ks : List Key) :
    ∀ acc, extractLoop text ks acc = none ↔ ∃ k ∈ ks, patternMatch k text = none := by
  induction ks with
  | nil => intro acc; simp [extractLoop]
  | cons k ks ih =>
    intro acc
    cases hpm : patternMatch k text with
    | some v =>
      simp only [extractLoop, hpm]
      rw [ih]
      constructor
      · rintro ⟨k2, h1, h2⟩
        exact ⟨k2, List.mem_cons_of_mem _ h1, h2⟩
      · rintro ⟨k2, h1, h2⟩
        rcases List.mem_cons.mp h1 with h | h
        · subst h; rw [hpm] at h2; cases h2
        · exact ⟨k2, h, h2⟩
    | none =>
      simp only [extractLoop, hpm]
      exact ⟨fun _ => ⟨k, List.mem_cons_self k ks, hpm⟩, fun _ => trivial⟩

/-- When the extraction loop succeeds, the returned object maps every
iterated key to its capture and every other key to the accumulator. -/
theorem extractLoop_eq_some_apply (text : String) (ks : List Key) :
    ∀ acc f, extractLoop text ks acc = some f →
      ∀ k, f k = if k ∈ ks then patternMatch k text else acc k := by
  induction ks with
  | nil =>
    intro acc f h k
    simp only [extractLoop, Option.some.injEq] at h
    subst h; simp
  | cons k0 ks ih =>
    intro acc f h k
    cases hpm : patternMatch k0 text with
    | none =>
      simp only [extractLoop, hpm] at h
      exact Option.noConfusion h
    | some v =>
      simp only [extractLoop, hpm] at h
      rw [ih _ f h k]
      by_cases h1 : k ∈ ks
      · simp [h1, List.mem_cons]
      · by_cases h2 : k = k0
        · subst h2; simp [h1, hpm, List.mem_cons]
        · simp [h1, h2, List.mem_cons]

/-- Every key is iterated over by the source loop. -/
theorem key_mem_keyOrder (k : Key) : k ∈ keyOrder := by
  cases k <;> simp [keyOrder]

/-- One failing pattern forces the whole extraction to null. -/
theorem extract_none_of_pattern_none (text : String) (k : Key)
    (h : patternMatch k text = none) : extractTokenInfo text = none := by
  rw [extractTokenInfo, extractLoop_eq_none_iff]
  exact ⟨k, key_mem_keyOrder k, h⟩

/-- `findLine` locates the first line starting with the key. -/
theorem findLine_append (pat : List Char) (pre : List (List Char)) (m : List Char)
    (post : List (List Char)) (hpre : ∀ l ∈ pre, lineHasKey pat l = false)
    (hm : lineHasKey pat m = true) :
    findLine pat (pre ++ m :: post) = some (pre, m, post) := by
  induction pre with
  | nil => simp [findLine, hm]
  | cons l ls ih =>
    have hl : lineHasKey pat l = false := hpre l (List.mem_cons_self l ls)
    have ihh := ih (fun x hx => hpre x (List.mem_cons_of_mem _ hx))
    simp [findLine, hl, ihh]

/-- `findLine` finds nothing when no line starts with the key. -/
theorem findLine_eq_none (pat : List Char) (ls : List (List Char))
    (h : ∀ l ∈ ls, lineHasKey pat l = false) : findLine pat ls = none := by
  induction ls with
  | nil => rfl
  | cons l ls ih =>
    have hl : lineHasKey pat l = false := h l (List.mem_cons_self l ls)
    have ihh := ih (fun x hx => h x (List.mem_cons_of_mem _ hx))
    simp [findLine, hl, ihh]

/-- Joining lines around a distinguished line splits into the raw text
before it, the line, and the raw text after it. -/
theorem joinLines_append (pre : List (List Char)) (x : List Char) (post : List (List Char)) :
    joinLines (pre ++ x :: post) = joinBefore pre ++ x ++ joinAfter post := by
  induction pre with
  | nil =>
    cases post with
    | nil => simp [joinLines, joinBefore, joinAfter]
    | cons l ls => simp [joinLines, joinBefore, joinAfter]
  | cons a pre ih =>
    have hcons : ∃ y ys, pre ++ x :: post = y :: ys := by
      cases pre with
      | nil => exact ⟨x, post, rfl⟩
      | cons b bs => exact ⟨b, bs ++ x :: post, rfl⟩
    obtain ⟨y, ys, hy⟩ := hcons
    calc joinLines ((a :: pre) ++ x :: post)
        = a ++ '\n' :: joinLines (pre ++ x :: post) := by
          rw [List.cons_append, hy]; rfl
      _ = a ++ '\n' :: (joinBefore pre ++ x ++ joinAfter post) := by rw [ih]
      _ = joinBefore (a :: pre) ++ x ++ joinAfter post := by
          simp [joinBefore, List.append_assoc]

/-- A replacement string free of substitution sequences is expanded to
itself. -/
theorem expandRepl_noSubst (m b a : List Char) :
    ∀ l : List Char, noSubst l = true → expandRepl m b a l = l := by
  intro l
  induction l with
  | nil => intro _; rfl
  | cons c rest ih =>
    cases rest with
    | nil =>
      intro _
      by_cases hc : c = dollarChar <;> simp [expandRepl, hc]
    | cons d rest2 =>
      intro h
      by_cases hc : c = dollarChar
      · rw [noSubst, if_pos hc] at h
        have h1 := (Bool.and_eq_true _ _).mp h
        have hd := h1.1
        have htail := h1.2
        simp only [Bool.not_eq_true', Bool.or_eq_false_iff, decide_eq_false_iff_not] at hd
        rw [expandRepl, if_pos hc]
        rw [if_neg hd.1.1.1, if_neg hd.1.1.2, if_neg hd.1.2, if_neg hd.2]
        rw [hc, ih htail]
      · rw [noSubst, if_neg hc] at h
        rw [expandRepl, if_neg hc, ih h]

/-! ### Claim theorems -/

/-- C1: for every input text, `extractTokenInfo` returns either a
complete record with all six fields or null: extraction returns null
exactly when one of the six patterns fails to produce a capture, and a
returned record always carries a value for every one of the six keys —
no partial record is ever returned. -/
theorem extract_all_or_nothing (text : String) :
    ((∃ k, patternMatch k text = none) ↔ extractTokenInfo text = none)
    ∧ ∀ f, extractTokenInfo text = some f → ∀ k, (f k).isSome = true := by
  constructor
  · rw [extractTokenInfo, extractLoop_eq_none_iff]
    constructor
    · rintro ⟨k, hk⟩
      exact ⟨k, key_mem_keyOrder k, hk⟩
    · rintro ⟨k, _, hk⟩
      exact ⟨k, hk⟩
  · intro f hf k
    have h1 := extractLoop_eq_some_apply text keyOrder (fun _ => none) f hf k
    rw [if_pos (key_mem_keyOrder k)] at h1
    cases hpm : patternMatch k text with
    | none =>
      have h2 := extract_none_of_pattern_none text k hpm
      rw [hf] at h2
      exact Option.noConfusion h2
    | some v => rw [h1, hpm]; rfl

theorem extract_all_or_nothing_witness :
    patternMatch Key.holders missingHoldersMsg = none
    ∧ extractTokenInfo missingHoldersMsg = none :=
  ⟨by decide, (extract_all_or_nothing missingHoldersMsg).1.mp ⟨Key.holders, by decide⟩⟩

/-- C4: on any text where all six patterns match, the extracted record
maps each key exactly to the first capture-group substring of the
corresponding pattern in that text — no trimming or normalisation is
applied. -/
theorem extract_exact_captures (text : String)
    (h : ∀ k ∈ keyOrder, (patternMatch k text).isSome = true) :
    ∃ f, extractTokenInfo text = some f ∧ ∀ k, f k = patternMatch k text := by
  cases h1 : extractTokenInfo text with
  | none =>
    exfalso
    rw [extractTokenInfo, extractLoop_eq_none_iff] at h1
    obtain ⟨k, hk, hpm⟩ := h1
    have h2 := h k hk
    rw [hpm] at h2
    exact Bool.noConfusion h2
  | some f =>
    refine ⟨f, rfl, fun k => ?_⟩
    have h2 := extractLoop_eq_some_apply text keyOrder (fun _ => none) f h1 k
    rw [if_pos (key_mem_keyOrder k)] at h2
    exact h2

theorem extract_exact_captures_witness :
    (∀ k ∈ keyOrder, (patternMatch k baseMsg).isSome = true)
    ∧ ∃ f, extractTokenInfo baseMsg = some f ∧ ∀ k, f k = patternMatch k baseMsg :=
  ⟨by decide, extract_exact_captures baseMsg (by decide)⟩

/-- C5: the result of extraction is independent of the order in which
the six patterns are evaluated: running the extraction loop over any
permutation of the six keys yields the same final result (the same
complete record, or null) as the source order. -/
theorem extract_order_independent (text : String) (order : List Key)
    (h : List.Perm order keyOrder) :
    extractLoop text order (fun _ => none) = extractTokenInfo text := by
  cases h1 : extractTokenInfo text with
  | none =>
    rw [extractTokenInfo, extractLoop_eq_none_iff] at h1
    rw [extractLoop_eq_none_iff]
    obtain ⟨k, hk, hpm⟩ := h1
    exact ⟨k, h.mem_iff.mpr hk, hpm⟩
  | some f =>
    cases h2 : extractLoop text order (fun _ => none) with
    | none =>
      exfalso
      rw [extractLoop_eq_none_iff] at h2
      obtain ⟨k, hk, hpm⟩ := h2
      have h3 := extract_none_of_pattern_none text k hpm
      rw [h1] at h3
      exact Option.noConfusion h3
    | some g =>
      congr 1
      funext k
      have hg := extractLoop_eq_some_apply text order (fun _ => none) g h2 k
      have hf := extractLoop_eq_some_apply text keyOrder (fun _ => none) f h1 k
      rw [hg, hf, if_pos (key_mem_keyOrder k), if_pos (h.mem_iff.mpr (key_mem_keyOrder k))]

theorem extract_order_independent_witness :
    List.Perm altOrder keyOrder
    ∧ extractLoop baseMsg altOrder (fun _ => none) = extractTokenInfo baseMsg :=
  ⟨by decide, extract_order_independent baseMsg altOrder (by decide)⟩

/-- C8: the token-symbol pattern is matched anywhere in the text, not
only against a dedicated symbol field: on `c8Msg`, which contains all
six labelled fields but whose first `$` followed by alphanumerics is
the `$0` of the price value `$0.002`, extraction succeeds and the
token name is the alphanumeric run `0` taken from the price. -/
theorem tokenName_matches_inside_price :
    patternMatch Key.tokenName c8Msg = some "0"
    ∧ (extractTokenInfo c8Msg).isSome = true
    ∧ extractedField c8Msg Key.tokenName = some "0" := by
  refine ⟨by decide, by decide, by decide⟩

/-- C9: each labelled pattern requires exactly one space between the
bold label and the value: `baseMsg` extracts successfully, and every
variant of it in which one label is followed by no space or by two
spaces makes that label's pattern fail and the whole extraction return
null. -/
theorem label_requires_single_space :
    (extractTokenInfo baseMsg).isSome = true
    ∧ (patternMatch Key.price priceNoSpaceMsg = none
        ∧ extractTokenInfo priceNoSpaceMsg = none)
    ∧ (patternMatch Key.price priceTwoSpaceMsg = none
        ∧ extractTokenInfo priceTwoSpaceMsg = none)
    ∧ (patternMatch Key.mc mcNoSpaceMsg = none
        ∧ extractTokenInfo mcNoSpaceMsg = none)
    ∧ (patternMatch Key.mc mcTwoSpaceMsg = none
        ∧ extractTokenInfo mcTwoSpaceMsg = none)
    ∧ (patternMatch Key.holders holdersNoSpaceMsg = none
        ∧ extractTokenInfo holdersNoSpaceMsg = none)
    ∧ (patternMatch Key.holders holdersTwoSpaceMsg = none
        ∧ extractTokenInfo holdersTwoSpaceMsg = none)
    ∧ (patternMatch Key.top10 top10NoSpaceMsg = none
        ∧ extractTokenInfo top10NoSpaceMsg = none)
    ∧ (patternMatch Key.top10 top10TwoSpaceMsg = none
        ∧ extractTokenInfo top10TwoSpaceMsg = none) := by
  exact ⟨by decide,
    ⟨by decide, extract_none_of_pattern_none priceNoSpaceMsg Key.price (by decide)⟩,
    ⟨by decide, extract_none_of_pattern_none priceTwoSpaceMsg Key.price (by decide)⟩,
    ⟨by decide, extract_none_of_pattern_none mcNoSpaceMsg Key.mc (by decide)⟩,
    ⟨by decide, extract_none_of_pattern_none mcTwoSpaceMsg Key.mc (by decide)⟩,
    ⟨by decide, extract_none_of_pattern_none holdersNoSpaceMsg Key.holders (by decide)⟩,
    ⟨by decide, extract_none_of_pattern_none holdersTwoSpaceMsg Key.holders (by decide)⟩,
    ⟨by decide, extract_none_of_pattern_none top10NoSpaceMsg Key.top10 (by decide)⟩,
    ⟨by decide, extract_none_of_pattern_none top10TwoSpaceMsg Key.top10 (by decide)⟩⟩

/-- C2: `getPairAddress` returns the `pairAddress` of the first entry
of the response's `pairs` array when that array is non-empty, and
returns null when the array is empty or absent or when the request
throws (non-2xx, timeout, network error); in every failure case it
writes a diagnostic log line and returns normally — it is a total
function of the call outcome, never propagating the error. -/
theorem getPairAddress_cases (addr : String) (r : HttpResult) :
    (∀ p rest, r = .success (some (p :: rest)) →
      getPairAddress addr r =
        (some p.pairAddress, ["Found pair address for " ++ addr ++ ": " ++ p.pairAddress]))
    ∧ (r = .success (some []) ∨ r = .success none →
      getPairAddress addr r = (none, ["No pairs found for token: " ++ addr]))
    ∧ (∀ e, r = .failure e →
      getPairAddress addr r = (none, ["API Error fetching pair address: " ++ failureMessage e])
        ∧ (getPairAddress addr r).2 ≠ []) := by
  refine ⟨?_, ?_, ?_⟩
  · rintro p rest rfl
    rfl
  · rintro (rfl | rfl) <;> rfl
  · rintro e rfl
    exact ⟨rfl, by simp [getPairAddress]⟩

theorem getPairAddress_cases_witness :
    getPairAddress "TOKEN" (.success (some [⟨"PAIR"⟩, ⟨"OTHER"⟩])) =
      (some "PAIR", ["Found pair address for TOKEN: PAIR"])
    ∧ getPairAddress "TOKEN" (.failure .timeout) =
      (none, ["API Error fetching pair address: timeout of 10000ms exceeded"])
    ∧ getPairAddress "TOKEN" (.success (some [])) =
      (none, ["No pairs found for token: TOKEN"]) :=
  ⟨(getPairAddress_cases "TOKEN" (.success (some [⟨"PAIR"⟩, ⟨"OTHER"⟩]))).1 ⟨"PAIR"⟩ [⟨"OTHER"⟩] rfl,
    ((getPairAddress_cases "TOKEN" (.failure .timeout)).2.2 .timeout rfl).1,
    (getPairAddress_cases "TOKEN" (.success (some []))).2.1 (Or.inl rfl)⟩

/-- C3: `sendToDiscord` performs no outbound POST and no log write when
either argument is absent — the effect list is empty, a pure no-op. -/
theorem sendToDiscord_noop (url now : String) (info : Option (Key → Option String))
    (pa : Option String) (postError : Option String)
    (h : info = none ∨ pa = none) :
    sendToDiscord url now info pa postError = [] := by
  rcases h with rfl | rfl
  · cases pa <;> rfl
  · cases info <;> rfl

theorem sendToDiscord_noop_witness :
    sendToDiscord "https://webhook.example" "2024-01-01T00:00:00.000Z"
      none (some "PAIR") none = []
    ∧ sendToDiscord "https://webhook.example" "2024-01-01T00:00:00.000Z"
      (extractTokenInfo baseMsg) none none = [] :=
  ⟨sendToDiscord_noop "https://webhook.example" "2024-01-01T00:00:00.000Z"
      none (some "PAIR") none (Or.inl rfl),
    sendToDiscord_noop "https://webhook.example" "2024-01-01T00:00:00.000Z"
      (extractTokenInfo baseMsg) none none (Or.inr rfl)⟩

/-- C6 (corrected): the claim fails as stated because JavaScript
`String.replace` expands substitution sequences in the replacement
string — see `updateEnvFile_counterexample`.  Amended claim: provided
`KEY=value` contains no substitution sequence (`$` followed by `$`,
`&`, a backquote or a quote), `updateEnvFile` has update-in-place
semantics: if some line of the content starts with `KEY=`, the first
such line is replaced wholesale by `KEY=value` and every other line is
preserved; otherwise the content is unchanged except for an appended
`\n` + `KEY=value`. -/
theorem updateEnvFile_update_in_place (key value content : String)
    (hns : noSubst (key ++ "=" ++ value).data = true) :
    (∀ pre m post,
      splitLines content.data = pre ++ m :: post →
      (∀ l ∈ pre, lineHasKey (key ++ "=").data l = false) →
      lineHasKey (key ++ "=").data m = true →
      updateEnvFile key value content =
        String.mk (joinLines (pre ++ (key ++ "=" ++ value).data :: post)))
    ∧ ((∀ l ∈ splitLines content.data, lineHasKey (key ++ "=").data l = false) →
      updateEnvFile key value content = content ++ "\n" ++ key ++ "=" ++ value) := by
  constructor
  · intro pre m post hsplit hpre hm
    rw [updateEnvFile, hsplit, findLine_append _ _ _ _ hpre hm]
    show String.mk (joinBefore pre ++
        expandRepl m (joinBefore pre) (joinAfter post) ((key ++ "=" ++ value).data) ++
        joinAfter post) =
      String.mk (joinLines (pre ++ (key ++ "=" ++ value).data :: post))
    rw [expandRepl_noSubst _ _ _ _ hns, joinLines_append]
  · intro hall
    rw [updateEnvFile, findLine_eq_none _ _ hall]

theorem updateEnvFile_update_in_place_witness :
    noSubst ("SESSION" ++ "=" ++ "newtoken").data = true
    ∧ updateEnvFile "SESSION" "newtoken" "API_ID=1\nSESSION=old\nAPI_HASH=h" =
      String.mk (joinLines (["API_ID=1".data] ++ "SESSION=newtoken".data :: ["API_HASH=h".data])) :=
  ⟨by decide,
    (updateEnvFile_update_in_place "SESSION" "newtoken" "API_ID=1\nSESSION=old\nAPI_HASH=h"
        (by decide)).1
      ["API_ID=1".data] "SESSION=old".data ["API_HASH=h".data]
      (by decide) (by decide) (by decide)⟩

/-- C6 counterexample: with `value = "$&"` (a JavaScript substitution
sequence) the matched line is not replaced wholesale by `KEY=value`:
the code produces `SESSION=SESSION=old`, not `SESSION=$&`. -/
theorem updateEnvFile_counterexample :
    updateEnvFile "SESSION" "$&" "A=1\nSESSION=old" = "A=1\nSESSION=SESSION=old"
    ∧ updateEnvFile "SESSION" "$&" "A=1\nSESSION=old" ≠ "A=1\nSESSION=$&" := by
  exact ⟨by decide, by decide⟩

/-- C10 (corrected): the claim fails as stated for the same reason as
the update-in-place claim — the replacement text is subject to
JavaScript substitution-sequence expansion, see
`updateEnvFile_dup_counterexample`.  Amended claim: provided
`KEY=value` contains no substitution sequence, when the content holds
two or more lines starting with `KEY=`, only the first such line is
replaced by `KEY=value` and every later duplicate line (and every
other line) is left unchanged. -/
theorem updateEnvFile_replaces_first_only (key value content : String)
    (pre : List (List Char)) (m : List Char) (post : List (List Char))
    (hns : noSubst (key ++ "=" ++ value).data = true)
    (hsplit : splitLines content.data = pre ++ m :: post)
    (hpre : ∀ l ∈ pre, lineHasKey (key ++ "=").data l = false)
    (hm : lineHasKey (key ++ "=").data m = true)
    (_hdup : ∃ l ∈ post, lineHasKey (key ++ "=").data l = true) :
    updateEnvFile key value content =
      String.mk (joinLines (pre ++ (key ++ "=" ++ value).data :: post)) := by
  rw [updateEnvFile, hsplit, findLine_append _ _ _ _ hpre hm]
  show String.mk (joinBefore pre ++
      expandRepl m (joinBefore pre) (joinAfter post) ((key ++ "=" ++ value).data) ++
      joinAfter post) =
    String.mk (joinLines (pre ++ (key ++ "=" ++ value).data :: post))
  rw [expandRepl_noSubst _ _ _ _ hns, joinLines_append]

theorem updateEnvFile_replaces_first_only_witness :
    (∃ l ∈ (["SESSION=b".data, "X=1".data] : List (List Char)),
      lineHasKey ("SESSION" ++ "=").data l = true)
    ∧ updateEnvFile "SESSION" "v" "SESSION=a\nSESSION=b\nX=1" =
      String.mk (joinLines ([] ++ "SESSION=v".data :: ["SESSION=b".data, "X=1".data])) :=
  ⟨by decide,
    updateEnvFile_replaces_first_only "SESSION" "v" "SESSION=a\nSESSION=b\nX=1"
      [] "SESSION=a".data ["SESSION=b".data, "X=1".data]
      (by decide) (by decide) (by decide) (by decide) (by decide)⟩

/-- C10 counterexample: with `value = "$$"` the first duplicate line
does not become `SESSION=$$` as the claim states — the `$$`
substitution sequence collapses to a single `$`. -/
theorem updateEnvFile_dup_counterexample :
    updateEnvFile "SESSION" "$$" "SESSION=a\nSESSION=b" = "SESSION=$\nSESSION=b"
    ∧ updateEnvFile "SESSION" "$$" "SESSION=a\nSESSION=b" ≠ "SESSION=$$\nSESSION=b" := by
  exact ⟨by decide, by decide⟩


/-- C7: at startup, when the parsed application id is missing or falsy
(`NaN` from an absent or non-numeric variable, or `0`), or the
application secret, the target chat identifier or the webhook URL is
missing or empty, the process prints the configuration error message
and exits with status 1 — and only then; the outcome is always either
that exit or normal startup, and the check never reads the session
credential, so an empty (or absent) initial `SESSION` does not cause
an exit. -/
theorem startup_config_check (e : Env) :
    (((apiIdVal e = none ∨ apiIdVal e = some 0)
        ∨ (e.API_HASH = none ∨ e.API_HASH = some "")
        ∨ (e.TARGET_CHAT_USERNAME = none ∨ e.TARGET_CHAT_USERNAME = some "")
        ∨ (e.DISCORD_WEBHOOK_URL = none ∨ e.DISCORD_WEBHOOK_URL = some ""))
      ↔ startupCheck e = some (1, envErrorMsg))
    ∧ (startupCheck e = some (1, envErrorMsg) ∨ startupCheck e = none)
    ∧ (∀ s, startupCheck { e with SESSION := s } = startupCheck e) := by
  have hApi : (apiIdVal e = none ∨ apiIdVal e = some 0) ↔ apiIdTruthy e = false := by
    cases h : apiIdVal e with
    | none => simp [apiIdTruthy, h]
    | some n => simp [apiIdTruthy, h]
  have hStr : ∀ o : Option String, (o = none ∨ o = some "") ↔ strTruthy o = false := by
    intro o
    cases o with
    | none => simp [strTruthy]
    | some s => simp [strTruthy]
  refine ⟨?_, ?_, fun s => rfl⟩
  · rw [hApi, hStr, hStr, hStr, startupCheck]
    by_cases hc : (!apiIdTruthy e || !strTruthy e.API_HASH
        || !strTruthy e.TARGET_CHAT_USERNAME || !strTruthy e.DISCORD_WEBHOOK_URL) = true
    · rw [if_pos hc]
      simp only [Bool.or_eq_true, Bool.not_eq_true'] at hc
      exact ⟨fun _ => rfl, fun _ => by tauto⟩
    · rw [if_neg hc]
      simp only [Bool.or_eq_true, Bool.not_eq_true'] at hc
      push_neg at hc
      simp only [ne_eq, Bool.not_eq_false] at hc
      simp [hc.1.1.1, hc.1.1.2, hc.1.2, hc.2]
  · rw [startupCheck]
    by_cases hc : (!apiIdTruthy e || !strTruthy e.API_HASH
        || !strTruthy e.TARGET_CHAT_USERNAME || !strTruthy e.DISCORD_WEBHOOK_URL) = true
    · rw [if_pos hc]; exact Or.inl rfl
    · rw [if_neg hc]; exact Or.inr rfl

theorem startup_config_check_witness :
    apiIdVal envNoApiId = none
    ∧ startupCheck envNoApiId = some (1, envErrorMsg)
    ∧ startupCheck { envAllSet with SESSION := some "" } = startupCheck envAllSet
    ∧ startupCheck envAllSet = none :=
  ⟨by decide,
    (startup_config_check envNoApiId).1.mp (Or.inl (Or.inl (by decide))),
    (startup_config_check envAllSet).2.2 (some ""),
    by decide⟩
